import Mathlib

/-!
Verification of the FieldChartOCR repository's scripted pipeline.

Shallow embedding of the pure logic of:
  * `src/scripts/homework_signer.py` (4-state barcode encoding, CSV-driven
    UUID signing of SVGs and PDFs),
  * `src/scripts/auto_detect_corners.py` (multi-scale template matching and
    the annotation classification loop),
  * `src/scripts/convert_to_coco.py` (valid-annotation filtering and the
    train/val/test split),
  * `src/scripts/distort_images_pil.py` (the file-set behaviour of the
    distortion batch run),
  * `src/FieldChartOCR/generate_synthetic_bar_tables.py` (synthetic table
    generation),
  * `src/scripts/extract_binary_matrix.py` (the 5x5 thresholded cell
    pattern and its 6x6 zero padding).

External library calls (OpenCV correlation, file system, random number
generation, image decoding) are modelled as explicit oracle parameters;
everything else is translated directly from the Python source.
-/

namespace FieldChartOCR

/-! ## Python string helpers -/

/-- Python `s.lower()`, character by character. -/
def strLower (s : String) : String :=
  ⟨s.data.map Char.toLower⟩

/-- Python `s.endswith(suf)`. -/
def strEndsWith (s suf : String) : Bool :=
  decide (s.data.drop (s.data.length - suf.data.length) = suf.data)

/-- Python `pat in s` (substring containment). -/
def strHasSub (s pat : String) : Bool :=
  (List.range (s.data.length + 1)).any
    (fun i => decide ((s.data.drop i).take pat.data.length = pat.data))

/-- Python `s.replace('-', '_')` specialised to single characters. -/
def strReplaceChar (s : String) (old new : Char) : String :=
  ⟨s.data.map (fun c => if c = old then new else c)⟩

/-- Python `not s.strip()`: the string is empty or all whitespace. -/
def isBlankStr (s : String) : Bool :=
  s.data.all (fun c => c.isWhitespace)

/-- Index of the last occurrence of `c` in `l`, if any. -/
def lastIdxOf (l : List Char) (c : Char) : Option Nat :=
  (List.range l.length).foldl
    (fun acc i => if l.getD i ' ' = c then some i else acc) none

/-- Python `os.path.splitext`: split at the last dot, except when every
character before that dot is itself a dot (hidden-file rule). -/
def splitExt (s : String) : String × String :=
  match lastIdxOf s.data '.' with
  | none => (s, "")
  | some i =>
    if (s.data.take i).all (fun c => c = '.') then (s, "")
    else (⟨s.data.take i⟩, ⟨s.data.drop i⟩)

/-! ## homework_signer.py: 4-state barcode

Translation of `CHAR_MAP`, `char_to_bars` and `encode_4state_barcode`
(src/scripts/homework_signer.py lines 26-45). -/

/-- The character-to-bars dictionary `CHAR_MAP`, in source order. -/
def CHAR_MAP : List (Char × String) := [
  ('A', "ATDA"), ('B', "ADTA"), ('C', "AATD"), ('D', "ADAT"), ('E', "TADA"), ('F', "TDAA"),
  ('G', "TDDA"), ('H', "TADA"), ('I', "DTAA"), ('J', "DATD"), ('K', "DAAT"), ('L', "DAAD"),
  ('M', "ATAD"), ('N', "TDAA"), ('O', "TDAD"), ('P', "TDDA"), ('Q', "ATAA"), ('R', "AADT"),
  ('S', "AADT"), ('T', "AATA"), ('U', "ATDD"), ('V', "TADD"), ('W', "TDDA"), ('X', "TADA"),
  ('Y', "DTAA"), ('Z', "DATD"),
  ('0', "ADDA"), ('1', "DADA"), ('2', "DAAD"), ('3', "ADAD"), ('4', "DADA"), ('5', "DAAD"),
  ('6', "DDAA"), ('7', "DADA"), ('8', "DAAD"), ('9', "DDAA")]

/-- `char_to_bars(c)`: upper-case, look up, default `'ATDA'`. -/
def char_to_bars (c : Char) : String :=
  (CHAR_MAP.lookup c.toUpper).getD "ATDA"

/-- `encode_4state_barcode(data)`: concatenate the bars of every character. -/
def encode_4state_barcode (data : String) : List Char :=
  data.data.flatMap (fun c => (char_to_bars c).data)

/-! ## homework_signer.py: CSV-driven UUID signing

Translation of `sign_with_next_uuid` (lines 889-947) and of the
UUID-selection / CSV-update loop of `sign_pdf_with_barcodes`
(lines 456-468 and 851-866).  A CSV row carries the three fields written
back by the scripts. -/

/-- One row of `v4_uuids.csv`. -/
structure Row where
  uuid : String
  entity : String
  state : String
deriving DecidableEq

/-- The selection test `not row.get('entity','').strip() and not
row.get('state','').strip()`. -/
def isBlankRow (r : Row) : Bool :=
  isBlankStr r.entity && isBlankStr r.state

/-- Scan for the first row with blank `entity` and `state`, returning the
rows before it, the row itself and the rows after it. -/
def splitFirstBlank : List Row → Option (List Row × Row × List Row)
  | [] => none
  | r :: rs =>
    if isBlankRow r then some ([], r, rs)
    else (splitFirstBlank rs).map (fun p => (r :: p.1, p.2.1, p.2.2))

/-- `sign_with_next_uuid`: select the first available row, fill in its
`entity` and `state`, and return `(uuid, output_path)` together with the
final CSV contents (unchanged when no row is available). -/
def sign_with_next_uuid (rows : List Row) (output_filename : Option String)
    (output_dir : String) : Option (String × String) × List Row :=
  match splitFirstBlank rows with
  | none => (none, rows)
  | some (pre, r, post) =>
    let name := output_filename.getD (strReplaceChar r.uuid '-' '_')
    let output_path := output_dir ++ "/" ++ name ++ ".svg"
    let r' : Row := { r with entity := name ++ ".svg", state := "active" }
    (some (r.uuid, output_path), pre ++ r' :: post)

/-- Marking a consumed CSV row: `rows[i]['entity'] = e;
rows[i]['state'] = 'active'`. -/
def markRow (r : Row) (e : String) : Row :=
  { r with entity := e, state := "active" }

/-- The per-page loop of `sign_pdf_with_barcodes`: for each page take the
first available UUID row, mark it consumed, and record
`(page_num + 1, uuid)`; stop when no row is available.  Returns the final
CSV contents and the signed-page list (the pages merged into the output
PDF). -/
def sign_pdf_with_barcodes :
    List Row → List Nat → String → List Row × List (Nat × String)
  | rows, [], _ => (rows, [])
  | rows, p :: ps, base =>
    match splitFirstBlank rows with
    | none => (rows, [])
    | some (pre, r, post) =>
      let rows' := pre ++ markRow r (base ++ "_page_" ++ toString (p + 1)) :: post
      let out := sign_pdf_with_barcodes rows' ps base
      (out.1, (p + 1, r.uuid) :: out.2)

/-! ## distort_images_pil.py

File-set model of `distort_images` (lines 30-57): which files one batch
run creates.  The pixel-level distortion itself is irrelevant to the
file-set behaviour. -/

/-- `f.lower().endswith(('.jpg', '.jpeg'))`. -/
def isJpgName (f : String) : Bool :=
  strEndsWith (strLower f) ".jpg" || strEndsWith (strLower f) ".jpeg"

/-- The inputs one run processes: JPG-named files that do not already
contain the suffix. -/
def distortInputs (files : List String) (suffix : String) : List String :=
  (files.filter (fun f => isJpgName f)).filter (fun f => !(strHasSub f suffix))

/-- `name, ext = os.path.splitext(filename)`;
`output_filename = name + suffix + ext`. -/
def outputName (f suffix : String) : String :=
  (splitExt f).1 ++ suffix ++ (splitExt f).2

/-- One loop iteration at the file-set level: skip when the output file
already exists in the folder, otherwise create it.  The first component
is the folder contents, the second the files created so far. -/
def distortStep (suffix : String) (acc : List String × List String)
    (f : String) : List String × List String :=
  let out := outputName f suffix
  if out ∈ acc.1 then acc else (out :: acc.1, acc.2 ++ [out])

/-- `distort_images` at the file-set level: the files the run creates. -/
def distort_images (files : List String) (suffix : String) : List String :=
  ((distortInputs files suffix).foldl (distortStep suffix) (files, [])).2

/-! ## convert_to_coco.py

Translation of the annotation filtering and the train/val/test split of
`create_coco_structure` (lines 30-70).  `np.random.shuffle` is an oracle:
the shuffled file list is any permutation of the valid image files. -/

/-- One annotation entry: the optional corner coordinates. -/
structure Ann where
  x : Option ℚ
  y : Option ℚ
deriving DecidableEq

/-- `valid_annotations`: keep entries whose `x` and `y` are both
non-None. -/
def valid_annotations (anns : List (String × Ann)) : List (String × Ann) :=
  anns.filter (fun a => a.2.x.isSome && a.2.y.isSome)

/-- The split: `n_train = int(n_total * train_ratio)`,
`n_val = int(n_total * val_ratio)`, `train_files = image_files[:n_train]`,
`val_files = image_files[n_train:n_train+n_val]`,
`test_files = image_files[n_train+n_val:]`. -/
def split_files (files : List String) (train_ratio val_ratio : ℚ) :
    List String × List String × List String :=
  let n := files.length
  let nTrain := (Int.floor ((n : ℚ) * train_ratio)).toNat
  let nVal := (Int.floor ((n : ℚ) * val_ratio)).toNat
  (files.take nTrain, (files.drop nTrain).take nVal,
    (files.drop nTrain).drop nVal)

/-! ## auto_detect_corners.py: multi-scale template matching

Translation of `detect_corner_with_templates` (lines 39-102).  The
OpenCV primitives `cv2.matchTemplate` + `cv2.minMaxLoc` are an oracle
`mt` returning, for a template and a scale, the maximum normalized
correlation over the search area together with its location.  Only the
shapes of the image and the templates enter the search logic. -/

/-- A grayscale image: its shape. -/
structure Image where
  h : Nat
  w : Nat
deriving DecidableEq

/-- A template image: its name and shape. -/
structure Template where
  name : String
  h : Nat
  w : Nat
deriving DecidableEq

/-- The default scale list `scales=[0.5, 0.75, 1.0, 1.25, 1.5]`. -/
def scales : List ℚ := [mkRat 1 2, mkRat 3 4, mkRat 1 1, mkRat 5 4, mkRat 3 2]

/-- `int(dim * scale)` for a nonnegative scale: the truncated product,
computed on the rational's numerator and denominator. -/
def scaledDim (dim : Nat) (s : ℚ) : Nat :=
  ((s.num * (dim : Int)) / (s.den : Int)).toNat

/-- The running best match of the detection loop
(`best_location`, `best_confidence`). -/
structure Best where
  x : Option Nat
  y : Option Nat
  conf : ℚ
deriving DecidableEq

/-- One iteration of the template/scale loop: skip scaled templates that
do not fit the search region (`scaled_w > region_w or scaled_h >
region_h: continue`), otherwise query the matching oracle and keep a
strictly better match, recording the centre of the scaled template in
full-image coordinates. -/
def detectStep (regionW regionH xStart yStart : Nat)
    (mt : Template → ℚ → ℚ × Nat × Nat) (b : Best) (p : Template × ℚ) :
    Best :=
  let sw := scaledDim p.1.w p.2
  let sh := scaledDim p.1.h p.2
  if sw > regionW ∨ sh > regionH then b
  else
    let r := mt p.1 p.2
    if b.conf < r.1 then
      { x := some (r.2.1 + xStart + sw / 2),
        y := some (r.2.2 + yStart + sh / 2), conf := r.1 }
    else b

/-- The search region: the given one, or the top-right quadrant
`(w // 2, 0, w // 2, h // 2)` when none is given. -/
def resolveRegion (img : Image) (sro : Option (Nat × Nat × Nat × Nat)) :
    Nat × Nat × Nat × Nat :=
  sro.getD (img.w / 2, 0, img.w / 2, img.h / 2)

/-- The template/scale pairs in loop order (outer loop templates, inner
loop scales). -/
def templateScalePairs (templates : List Template) : List (Template × ℚ) :=
  templates.flatMap (fun t => scales.map (fun s => (t, s)))

/-- `detect_corner_with_templates`: `(None, None, 0.0)` for a missing
image, otherwise the best match of the loop over all templates and
scales. -/
def detect_corner_with_templates (image : Option Image)
    (templates : List Template)
    (searchRegion : Option (Nat × Nat × Nat × Nat))
    (mt : Template → ℚ → ℚ × Nat × Nat) : Option Nat × Option Nat × ℚ :=
  match image with
  | none => (none, none, 0)
  | some img =>
    let sr := resolveRegion img searchRegion
    let b := (templateScalePairs templates).foldl
      (detectStep sr.2.2.1 sr.2.2.2 sr.1 sr.2.1 mt)
      { x := none, y := none, conf := 0 }
    (b.x, b.y, b.conf)

/-- Whether a scaled template fits inside the search region. -/
def fitsB (regionW regionH : Nat) (p : Template × ℚ) : Bool :=
  decide (scaledDim p.1.w p.2 ≤ regionW) &&
    decide (scaledDim p.1.h p.2 ≤ regionH)

/-- The template/scale pairs whose scaled template fits the region. -/
def fittingPairs (templates : List Template) (regionW regionH : Nat) :
    List (Template × ℚ) :=
  (templateScalePairs templates).filter (fitsB regionW regionH)

/-- The correlation maximum the oracle reports for a pair. -/
def corrOf (mt : Template → ℚ → ℚ × Nat × Nat) (p : Template × ℚ) : ℚ :=
  (mt p.1 p.2).1

/-- The confidence the loop accumulates: the maximum reported correlation
over a pair list, floored at the initial confidence `0.0`. -/
def bestCorr (mt : Template → ℚ → ℚ × Nat × Nat)
    (pairs : List (Template × ℚ)) : ℚ :=
  (pairs.map (corrOf mt)).foldl max 0

/-- Modelled from the spec's words: `the maximum normalized correlation
over all pairs of a template and a scale whose scaled template fits
inside the search region`, with no floor at zero. -/
def specMaxCorr (mt : Template → ℚ → ℚ × Nat × Nat)
    (pairs : List (Template × ℚ)) : Option ℚ :=
  (pairs.map (corrOf mt)).max?

/-! ## auto_detect_corners.py: the annotation loop

Translation of `auto_detect_corners` (lines 120-172).  `cv2.imread`
success and the per-image detection result are oracles. -/

/-- `f.lower().endswith(('.jpg', '.jpeg', '.png'))`. -/
def isImageName (f : String) : Bool :=
  strEndsWith (strLower f) ".jpg" || strEndsWith (strLower f) ".jpeg" ||
    strEndsWith (strLower f) ".png"

/-- One output entry of `auto_detect_corners`: coordinates, confidence,
and whether the `needs_review` key is present. -/
structure DetEntry where
  x : Option ℚ
  y : Option ℚ
  confidence : ℚ
  needs_review : Bool
deriving DecidableEq

/-- The classification of one detection result `(x, y, confidence)`
against the confidence threshold. -/
def classifyDetection (d : Option ℚ × Option ℚ × ℚ) (thr : ℚ) : DetEntry :=
  if d.1 ≠ none ∧ d.2.1 ≠ none ∧ d.2.2 ≥ thr then
    { x := d.1, y := d.2.1, confidence := d.2.2, needs_review := false }
  else if d.2.2 > 0 then
    { x := d.1, y := d.2.1, confidence := d.2.2, needs_review := true }
  else
    { x := none, y := none, confidence := 0, needs_review := true }

/-- The image files the loop considers: image extensions, excluding names
containing `'_distorted'`. -/
def detectImageFiles (files : List String) : List String :=
  (files.filter (fun f => isImageName f)).filter
    (fun f => !(strHasSub f "_distorted"))

/-- `auto_detect_corners`: `none` (no output written) when no templates
load; otherwise one classified entry per image file that loads. -/
def auto_detect_corners (templates : List Template) (files : List String)
    (load : String → Bool) (det : String → Option ℚ × Option ℚ × ℚ)
    (thr : ℚ) : Option (List (String × DetEntry)) :=
  if templates = [] then none
  else some (((detectImageFiles files).filter load).map
    (fun f => (f, classifyDetection (det f) thr)))

/-! ## generate_synthetic_bar_tables.py

Translation of the label pools, `random_from_pool`, `choose_labels`,
`gen_single_series` and `gen_grouped_series` (lines 26-189).  The
`random` module is an oracle: `random.choice` is an arbitrary index into
the pool list, `randint(lo, hi)` an arbitrary draw folded into the
admissible range, `uniform` and `gauss` arbitrary rationals. -/

/-- `SINGLE_SERIES_CATEGORY_POOLS`, in source order. -/
def SINGLE_SERIES_CATEGORY_POOLS : List (List String) := [
  ["Lion", "Zebra", "Bear", "Tiger", "Snake", "Giraffe", "Hippo"],
  ["Solar", "Wind", "Hydro", "Nuclear", "Geothermal", "Biomass"],
  ["Q1", "Q2", "Q3", "Q4"],
  ["Compressor", "Generator", "Pump", "Valve", "Sensor", "Actuator"],
  ["North", "South", "East", "West", "Central"],
  ["Prototype A", "Prototype B", "Prototype C", "Prototype D"],
  ["Apple", "Banana", "Cherry", "Date", "Fig"],
  ["Copper", "Iron", "Gold", "Silver", "Platinum"],
  ["Monday", "Tuesday", "Wednesday", "Thursday", "Friday"],
  ["Jazz", "Rock", "Pop", "Classical", "Hip-Hop"],
  ["Alpha", "Beta", "Gamma", "Delta", "Epsilon", "Zeta"],
  ["Python", "Java", "C++", "JavaScript", "Go", "Rust"],
  ["SUV", "Sedan", "Truck", "Coupe", "Convertible"],
  ["Red", "Green", "Blue", "Yellow", "Black", "White"],
  ["Dog", "Cat", "Rabbit", "Horse", "Sheep", "Cow"],
  ["Coffee", "Tea", "Juice", "Water", "Milk", "Soda"],
  ["Rectangle", "Circle", "Triangle", "Square", "Pentagon", "Hexagon"],
  ["Jazz", "Blues", "Reggae", "Funk", "Soul", "Country"],
  ["Chef", "Doctor", "Lawyer", "Engineer", "Artist"],
  ["Physics", "Chemistry", "Biology", "Math", "Geology", "Astronomy"],
  ["Bread", "Rice", "Pasta", "Potato", "Corn", "Quinoa"],
  ["Star", "Planet", "Comet", "Asteroid", "Nebula", "Galaxy"],
  ["Winter", "Spring", "Summer", "Autumn"],
  ["Guitar", "Piano", "Drums", "Violin", "Trumpet", "Cello"],
  ["Oak", "Pine", "Birch", "Maple", "Spruce", "Cedar"],
  ["Red", "Orange", "Yellow", "Green", "Blue", "Indigo", "Violet"],
  ["Circle", "Ellipse", "Arc", "Sector", "Chord"],
  ["Bus", "Train", "Plane", "Boat", "Bicycle", "Car"],
  ["Mercury", "Venus", "Earth", "Mars", "Jupiter", "Saturn"],
  ["Server", "Client", "Database", "Router", "Switch"]]

/-- `GROUP_PRIMARY_LABELS`, in source order. -/
def GROUP_PRIMARY_LABELS : List (List String) := [
  ["Green", "Blue", "Yellow", "Red", "Purple"],
  ["Project A", "Project B", "Project C", "Project D"],
  ["Team Alpha", "Team Beta", "Team Gamma", "Team Delta"],
  ["Year 1", "Year 2", "Year 3", "Year 4"],
  ["Summer", "Autumn", "Winter", "Spring"],
  ["Europe", "Asia", "Africa", "America"],
  ["Bronze", "Silver", "Gold", "Platinum"],
  ["Leader", "Member", "Advisor", "Intern"],
  ["Vanilla", "Chocolate", "Strawberry", "Mint", "Coffee"],
  ["CPU", "GPU", "RAM", "SSD", "HDD"],
  ["Morning", "Afternoon", "Evening", "Night"],
  ["Section 1", "Section 2", "Section 3", "Section 4"],
  ["Windows", "Mac", "Linux", "Unix"],
  ["Dog", "Cat", "Horse", "Bird"],
  ["Easy", "Medium", "Hard", "Expert"],
  ["Sales", "Marketing", "Engineering", "HR"],
  ["Primary", "Secondary", "Tertiary", "Quaternary"],
  ["Student", "Teacher", "Principal", "Counselor"],
  ["A", "B", "C", "D", "E", "F"],
  ["Sakura", "Rose", "Tulip", "Lily"],
  ["Song 1", "Song 2", "Song 3", "Song 4", "Song 5"],
  ["Batch 1", "Batch 2", "Batch 3"],
  ["Alpha 1", "Alpha 2", "Beta 1", "Beta 2"],
  ["Product X", "Product Y", "Product Z"],
  ["East", "West", "North", "South"],
  ["Freshman", "Sophomore", "Junior", "Senior"],
  ["Admin", "User", "Guest", "Moderator"],
  ["Quarter 1", "Quarter 2", "Quarter 3", "Quarter 4"]]

/-- `GROUP_SECONDARY_LABELS`, in source order. -/
def GROUP_SECONDARY_LABELS : List (List String) := [
  ["Preschool", "Primary", "Secondary"],
  ["On-Time", "Delayed", "Critical"],
  ["Low", "Medium", "High"],
  ["Week 1", "Week 2", "Week 3", "Week 4"],
  ["Yes", "No", "Maybe"],
  ["Standard", "Premium", "Deluxe"],
  ["1st", "2nd", "3rd"],
  ["Small", "Medium", "Large", "Extra Large"],
  ["Gold", "Silver", "Bronze"],
  ["Less", "Equal", "More"],
  ["Blue", "Red", "Green", "Yellow"],
  ["Pass", "Fail", "Incomplete"],
  ["Short", "Medium", "Tall"],
  ["Circle", "Square", "Triangle"],
  ["Spring", "Summer", "Autumn", "Winter"],
  ["Young", "Adult", "Senior"],
  ["Single", "Double", "Triple"],
  ["Morning", "Noon", "Night"],
  ["Home", "Away", "Neutral"],
  ["Odd", "Even", "Prime"],
  ["Mild", "Spicy", "Hot"],
  ["Economy", "Business", "First"],
  ["A", "B", "C", "D"],
  ["East", "West", "Central"],
  ["Red", "Green", "Blue"],
  ["Hot", "Warm", "Cool", "Cold"],
  ["Sunny", "Cloudy", "Rainy", "Snowy"],
  ["Alpha", "Beta", "Gamma"]]

/-- `random_from_pool(pool)`: an arbitrary element of the pool list,
selected by an oracle index reduced modulo the pool count. -/
def random_from_pool (pools : List (List String)) (idx : Nat) :
    List String :=
  pools.getD (idx % pools.length) []

/-- `choose_labels(pool, min_len, max_len)`: select a pool, then keep its
first `k` labels with `k = randint(min(min_len, len), min(max_len, len))`;
the oracle draw `kChoice` is folded into the admissible range. -/
def choose_labels (pools : List (List String)) (idx kChoice : Nat)
    (min_len max_len : Nat) : List String :=
  let labels := random_from_pool pools idx
  let lo := min min_len labels.length
  let hi := min max_len labels.length
  let k := lo + kChoice % (hi - lo + 1)
  labels.take k

/-- Python `round` (ties to even), as used in `int(round(x))`. -/
def pythonRound (q : ℚ) : ℤ :=
  if Int.fract q < 1 / 2 then Int.floor q
  else if 1 / 2 < Int.fract q then Int.floor q + 1
  else if Int.floor q % 2 = 0 then Int.floor q else Int.floor q + 1

/-- `gen_single_series`: choose 4-6 category labels under the header
`('Category', 'Value')`; each row's value is `max(1, base + noise)` with
`base = randint(10, 70)` and `noise = randint(-5, 8)` drawn from the
oracle streams. -/
def gen_single_series (idx kChoice : Nat) (base noise : Nat → ℤ) :
    (String × String) × List (String × ℤ) :=
  let labels := choose_labels SINGLE_SERIES_CATEGORY_POOLS idx kChoice 4 6
  (("Category", "Value"),
    labels.enum.map (fun li => (li.2, max 1 (base li.1 + noise li.1))))

/-- `gen_grouped_series`: choose 3-5 primary and 3-4 secondary labels
under the header `('Group', 'Subgroup', 'Value')`; each row's value is
`max(1, int(round(base + share_total * normalized_weight + u)))` with the
random draws supplied by oracle streams (`weights` are absolute values of
Gaussian draws, normalized by their sum, or by 1 when the sum is zero). -/
def gen_grouped_series (idxP kP idxS kS : Nat) (baseOf : Nat → ℤ)
    (shareOf : Nat → ℚ) (weightOf : Nat → Nat → ℚ) (uOf : Nat → Nat → ℚ) :
    (String × String × String) × List (String × String × ℤ) :=
  let primary := choose_labels GROUP_PRIMARY_LABELS idxP kP 3 5
  let secondary := choose_labels GROUP_SECONDARY_LABELS idxS kS 3 4
  (("Group", "Subgroup", "Value"),
    primary.enum.flatMap (fun pi =>
      let ws := secondary.enum.map (fun sj => |weightOf pi.1 sj.1|)
      let wsum := if ws.sum = 0 then 1 else ws.sum
      secondary.enum.map (fun sj =>
        (pi.2, sj.2,
          max 1 (pythonRound ((baseOf pi.1 : ℚ) + shareOf pi.1 *
            (|weightOf pi.1 sj.1| / wsum) + uOf pi.1 sj.1))))))

/-! ## extract_binary_matrix.py

Translation of the 5x5 cell thresholding and the 6x6 zero padding
(lines 57-84). -/

/-- The grayscale grid region: shape and pixel values. -/
structure GrayImg where
  h : Nat
  w : Nat
  px : Nat → Nat → Nat

/-- The pixel sum of the rectangle `[y0, y1) x [x0, x1)`. -/
def regionSum (g : GrayImg) (y0 y1 x0 x1 : Nat) : Nat :=
  ((List.range (y1 - y0)).map (fun dy =>
    ((List.range (x1 - x0)).map (fun dx => g.px (y0 + dy) (x0 + dx))).sum)).sum

/-- `np.mean` of that rectangle. -/
def regionMean (g : GrayImg) (y0 y1 x0 x1 : Nat) : ℚ :=
  (regionSum g y0 y1 x0 x1 : ℚ) / (((y1 - y0) * (x1 - x0) : Nat) : ℚ)

/-- The sampled cell start `i * cell + cell // 8`. -/
def cellLo (cell i : Nat) : Nat := i * cell + cell / 8

/-- The sampled cell end `(i + 1) * cell - cell // 8`. -/
def cellHi (cell i : Nat) : Nat := (i + 1) * cell - cell / 8

/-- The 5x5 thresholded pattern: 1 exactly when the sampled cell region
is nonempty and its mean is below 128 (dark, filled square). -/
def pattern_5x5 (g : GrayImg) (i j : Fin 5) : Nat :=
  if cellHi (g.h / 5) i.val > cellLo (g.h / 5) i.val ∧
      cellHi (g.w / 5) j.val > cellLo (g.w / 5) j.val then
    if regionMean g (cellLo (g.h / 5) i.val) (cellHi (g.h / 5) i.val)
        (cellLo (g.w / 5) j.val) (cellHi (g.w / 5) j.val) < 128 then 1
    else 0
  else 0

/-- The printed 6x6 matrix: the 5x5 pattern zero-padded with a sixth row
and a sixth column. -/
def pattern_6x6 (g : GrayImg) (i j : Fin 6) : Nat :=
  if h : i.val < 5 ∧ j.val < 5 then pattern_5x5 g ⟨i.val, h.1⟩ ⟨j.val, h.2⟩
  else 0

end FieldChartOCR

namespace FieldChartOCR

/-! ## Supporting lemmas -/

/-- A successful association-list lookup returns one of the stored values. -/
theorem lookup_mem_snd {l : List (Char × String)} {a : Char} {b : String}
    (h : l.lookup a = some b) : b ∈ l.map Prod.snd := by
  rcases List.lookup_eq_some_iff.1 h with ⟨l₁, l₂, rfl, -⟩
  simp

/-- Every bar string produced by `char_to_bars` is the default or a
`CHAR_MAP` value. -/
theorem char_to_bars_mem (c : Char) :
    char_to_bars c ∈ "ATDA" :: CHAR_MAP.map Prod.snd := by
  unfold char_to_bars
  cases h : CHAR_MAP.lookup c.toUpper with
  | none => simp [h]
  | some v =>
    simp only [h, Option.getD_some]
    exact List.mem_cons_of_mem _ (lookup_mem_snd h)

/-- No bar string reachable from `char_to_bars` contains the bar `'F'`. -/
theorem no_F_in_bar_strings :
    ∀ s ∈ "ATDA" :: CHAR_MAP.map Prod.snd, 'F' ∉ s.data := by decide

/-- `char_to_bars` never emits an `'F'` bar. -/
theorem char_to_bars_no_F (c : Char) : 'F' ∉ (char_to_bars c).data :=
  no_F_in_bar_strings _ (char_to_bars_mem c)

/-- Every bar string reachable from `char_to_bars` uses only the bars
`'A'`, `'D'`, `'T'`. -/
theorem bar_strings_ADT :
    ∀ s ∈ "ATDA" :: CHAR_MAP.map Prod.snd,
      ∀ b ∈ s.data, b = 'A' ∨ b = 'D' ∨ b = 'T' := by decide

/-- `splitFirstBlank` fails exactly when no row is blank-blank. -/
theorem splitFirstBlank_eq_none {rows : List Row} :
    splitFirstBlank rows = none ↔ rows.filter isBlankRow = [] := by
  induction rows with
  | nil => simp [splitFirstBlank]
  | cons r rs ih =>
    by_cases h : isBlankRow r
    · simp [splitFirstBlank, h, List.filter_cons]
    · simp [splitFirstBlank, h, List.filter_cons, ih]

/-- A successful `splitFirstBlank` decomposes the row list at the first
blank-blank row. -/
theorem splitFirstBlank_eq_some {rows pre post : List Row} {r : Row}
    (h : splitFirstBlank rows = some (pre, r, post)) :
    rows = pre ++ r :: post ∧ isBlankRow r = true ∧
      pre.filter isBlankRow = [] := by
  induction rows generalizing pre with
  | nil => simp [splitFirstBlank] at h
  | cons q qs ih =>
    by_cases hq : isBlankRow q
    · simp only [splitFirstBlank, if_pos hq, Option.some.injEq] at h
      obtain ⟨rfl, rfl, rfl⟩ := h
      simp [hq]
    · simp only [splitFirstBlank, if_neg hq, Option.map_eq_some'] at h
      obtain ⟨⟨a, x, b⟩, hsp, heq⟩ := h
      obtain ⟨rfl, rfl, rfl⟩ :  q :: a = pre ∧ x = r ∧ b = post := by
        simpa using heq
      obtain ⟨h1, h2, h3⟩ := ih hsp
      refine ⟨by simp [h1], h2, ?_⟩
      simp [List.filter_cons, hq, h3]

/-- Converse direction: an explicit first-blank decomposition determines
the result of `splitFirstBlank`. -/
theorem splitFirstBlank_of_decomp {pre post : List Row} {r : Row}
    (hpre : pre.filter isBlankRow = []) (hr : isBlankRow r = true) :
    splitFirstBlank (pre ++ r :: post) = some (pre, r, post) := by
  induction pre with
  | nil => simp [splitFirstBlank, hr]
  | cons q qs ih =>
    have hq : isBlankRow q = false := by
      by_contra hiq
      have : isBlankRow q = true := by
        cases h' : isBlankRow q
        · exact absurd h' hiq
        · rfl
      simp [List.filter_cons, this] at hpre
    have hqs : qs.filter isBlankRow = [] := by
      simpa [List.filter_cons, hq] using hpre
    simp [splitFirstBlank, hq, ih hqs]

/-- A marked row is never blank-blank again (its state is `'active'`). -/
theorem markRow_not_blank (r : Row) (e : String) :
    isBlankRow (markRow r e) = false := by
  simp only [isBlankRow, markRow]
  have : isBlankStr "active" = false := by decide
  simp [this]

/-- Filtering for blank rows after marking the first one drops exactly
the head of the blank-row list. -/
theorem filter_mark_decomp (pre post : List Row) (r : Row) (e : String)
    (hpre : pre.filter isBlankRow = []) :
    (pre ++ markRow r e :: post).filter isBlankRow =
      post.filter isBlankRow := by
  simp [List.filter_append, hpre, List.filter_cons, markRow_not_blank]

/-- The blank-row list of a first-blank decomposition. -/
theorem filter_decomp (pre post : List Row) (r : Row)
    (hpre : pre.filter isBlankRow = []) (hr : isBlankRow r = true) :
    (pre ++ r :: post).filter isBlankRow =
      r :: post.filter isBlankRow := by
  simp [List.filter_append, hpre, List.filter_cons, hr]

/-- Invariants of the `sign_pdf_with_barcodes` page loop, by induction on
the page list: the recorded uuids are the leading blank rows in CSV
order, the recorded page numbers are the leading pages, uuids of the CSV
are preserved, and consumed blank rows are removed from the front. -/
theorem sign_pdf_loop_spec (pages : List Nat) (rows : List Row)
    (base : String) :
    (sign_pdf_with_barcodes rows pages base).2.map Prod.snd =
      ((rows.filter isBlankRow).take pages.length).map Row.uuid ∧
    (sign_pdf_with_barcodes rows pages base).2.map Prod.fst =
      (pages.take (rows.filter isBlankRow).length).map (fun p => p + 1) ∧
    (sign_pdf_with_barcodes rows pages base).1.map Row.uuid =
      rows.map Row.uuid ∧
    (sign_pdf_with_barcodes rows pages base).1.filter isBlankRow =
      (rows.filter isBlankRow).drop pages.length := by
  induction pages generalizing rows with
  | nil => simp [sign_pdf_with_barcodes]
  | cons p ps ih =>
    cases hsp : splitFirstBlank rows with
    | none =>
      have hfil : rows.filter isBlankRow = [] :=
        splitFirstBlank_eq_none.1 hsp
      simp [sign_pdf_with_barcodes, hsp, hfil]
    | some t =>
      obtain ⟨pre, r, post⟩ := t
      obtain ⟨hdec, hr, hpre⟩ := splitFirstBlank_eq_some hsp
      have hfil : rows.filter isBlankRow = r :: post.filter isBlankRow := by
        rw [hdec]; exact filter_decomp pre post r hpre hr
      have hfil' :
          (pre ++ markRow r (base ++ "_page_" ++ toString (p + 1)) :: post).filter
              isBlankRow = post.filter isBlankRow :=
        filter_mark_decomp pre post r _ hpre
      obtain ⟨ih1, ih2, ih3, ih4⟩ :=
        ih (pre ++ markRow r (base ++ "_page_" ++ toString (p + 1)) :: post)
      refine ⟨?_, ?_, ?_, ?_⟩
      · simp only [sign_pdf_with_barcodes, hsp, List.map_cons]
        rw [ih1, hfil', hfil]
        simp
      · simp only [sign_pdf_with_barcodes, hsp, List.map_cons]
        rw [ih2, hfil', hfil]
        simp
      · simp only [sign_pdf_with_barcodes, hsp]
        rw [ih3, hdec]
        simp [markRow]
      · simp only [sign_pdf_with_barcodes, hsp]
        rw [ih4, hfil', hfil]
        simp

/-- A string whose character data decomposes around `pat` contains `pat`
as a substring. -/
theorem strHasSub_of_decomp (s pat : String) (a b : List Char)
    (h : s.data = a ++ (pat.data ++ b)) : strHasSub s pat = true := by
  apply List.any_eq_true.2
  refine ⟨a.length, List.mem_range.2 ?_, ?_⟩
  · rw [h]
    simp only [List.length_append]
    omega
  · rw [h, List.drop_left]
    exact decide_eq_true (List.take_left pat.data b)

/-- `splitExt` splits the file name: stem and extension concatenate back
to the original name. -/
theorem splitExt_append (f : String) :
    (splitExt f).1.data ++ (splitExt f).2.data = f.data := by
  unfold splitExt
  cases lastIdxOf f.data '.' with
  | none => simp
  | some i =>
    by_cases h : (f.data.take i).all (fun c => c = '.')
    · simp [h]
    · simp [h, List.take_append_drop]

/-- Every produced output file name contains the suffix. -/
theorem outputName_hasSub (f suffix : String) :
    strHasSub (outputName f suffix) suffix = true := by
  apply strHasSub_of_decomp _ _ (splitExt f).1.data (splitExt f).2.data
  simp [outputName, String.data_append]

/-- The folder contents only grow along the distortion loop. -/
theorem distortFold_acc1_mono (suffix : String) (gs : List String)
    (acc : List String × List String) {x : String} (hx : x ∈ acc.1) :
    x ∈ (gs.foldl (distortStep suffix) acc).1 := by
  induction gs generalizing acc with
  | nil => simpa using hx
  | cons g gs ih =>
    simp only [List.foldl_cons]
    apply ih
    unfold distortStep
    by_cases h : outputName g suffix ∈ acc.1
    · simpa [h] using hx
    · simp only [if_neg h]
      exact List.mem_cons_of_mem _ hx

/-- The created-file list only grows along the distortion loop. -/
theorem distortFold_acc2_mono (suffix : String) (gs : List String)
    (acc : List String × List String) {x : String} (hx : x ∈ acc.2) :
    x ∈ (gs.foldl (distortStep suffix) acc).2 := by
  induction gs generalizing acc with
  | nil => simpa using hx
  | cons g gs ih =>
    simp only [List.foldl_cons]
    apply ih
    unfold distortStep
    by_cases h : outputName g suffix ∈ acc.1
    · simpa [h] using hx
    · simp only [if_neg h]
      exact List.mem_append_left _ hx

/-- After the loop, the output name of every processed input is in the
folder. -/
theorem distortFold_out_mem (suffix : String) (gs : List String)
    (acc : List String × List String) {f : String} (hf : f ∈ gs) :
    outputName f suffix ∈ (gs.foldl (distortStep suffix) acc).1 := by
  induction gs generalizing acc with
  | nil => simp at hf
  | cons g gs ih =>
    simp only [List.foldl_cons]
    rcases List.mem_cons.1 hf with rfl | hf'
    · apply distortFold_acc1_mono
      unfold distortStep
      by_cases h : outputName f suffix ∈ acc.1
      · simp [h]
      · simp only [if_neg h]
        exact List.mem_cons_self _ _
    · exact ih _ hf'

/-- Every file in the folder after the loop was there before the loop or
was created by it. -/
theorem distortFold_acc1_sub (suffix : String) (gs : List String)
    (acc : List String × List String) {x : String}
    (hx : x ∈ (gs.foldl (distortStep suffix) acc).1) :
    x ∈ acc.1 ∨ x ∈ (gs.foldl (distortStep suffix) acc).2 := by
  induction gs generalizing acc with
  | nil => exact Or.inl (by simpa using hx)
  | cons g gs ih =>
    simp only [List.foldl_cons] at hx ⊢
    rcases ih _ hx with hx1 | hx2
    · unfold distortStep at hx1
      by_cases h : outputName g suffix ∈ acc.1
      · rw [if_pos h] at hx1
        exact Or.inl hx1
      · rw [if_neg h] at hx1
        rcases List.mem_cons.1 hx1 with rfl | hx1'
        · refine Or.inr (distortFold_acc2_mono _ _ _ ?_)
          unfold distortStep
          rw [if_neg h]
          simp
        · exact Or.inl hx1'
    · exact Or.inr hx2

/-- Every file the loop creates is the output name of a processed input. -/
theorem distortFold_acc2_src (suffix : String) (gs : List String)
    (acc : List String × List String) {x : String}
    (hx : x ∈ (gs.foldl (distortStep suffix) acc).2) :
    x ∈ acc.2 ∨ ∃ g ∈ gs, x = outputName g suffix := by
  induction gs generalizing acc with
  | nil => exact Or.inl (by simpa using hx)
  | cons g gs ih =>
    simp only [List.foldl_cons] at hx
    rcases ih _ hx with hx1 | ⟨g', hg', rfl⟩
    · unfold distortStep at hx1
      by_cases h : outputName g suffix ∈ acc.1
      · rw [if_pos h] at hx1
        exact Or.inl hx1
      · rw [if_neg h] at hx1
        rcases List.mem_append.1 hx1 with hx2 | hx2
        · exact Or.inl hx2
        · exact Or.inr ⟨g, List.mem_cons_self _ _, (List.mem_singleton.1 hx2)⟩
    · exact Or.inr ⟨g', List.mem_cons_of_mem _ hg', rfl⟩

/-- When every input's output already exists, the loop is the identity. -/
theorem distortFold_all_skip (suffix : String) (gs : List String)
    (acc : List String × List String)
    (h : ∀ f ∈ gs, outputName f suffix ∈ acc.1) :
    gs.foldl (distortStep suffix) acc = acc := by
  induction gs with
  | nil => simp
  | cons g gs ih =>
    have hstep : distortStep suffix acc g = acc := by
      unfold distortStep
      rw [if_pos (h g (List.mem_cons_self _ _))]
    simp only [List.foldl_cons, hstep]
    exact ih (fun f hf => h f (List.mem_cons_of_mem _ hf))

/-- An update by strict comparison computes the lattice maximum. -/
theorem if_lt_eq_max (a v : ℚ) : (if a < v then v else a) = max a v := by
  rcases lt_or_ge a v with h | h
  · rw [if_pos h, max_eq_right h.le]
  · rw [if_neg (not_lt.2 h), max_eq_left h]

/-- `fitsB` decides the fit condition. -/
theorem fitsB_eq_true {regW regH : Nat} {p : Template × ℚ} :
    fitsB regW regH p = true ↔
      scaledDim p.1.w p.2 ≤ regW ∧ scaledDim p.1.h p.2 ≤ regH := by
  simp [fitsB]

/-- A skipped iteration leaves the best match unchanged. -/
theorem detectStep_unfit {regW regH xS yS : Nat}
    {mt : Template → ℚ → ℚ × Nat × Nat} {b : Best} {p : Template × ℚ}
    (h : scaledDim p.1.w p.2 > regW ∨ scaledDim p.1.h p.2 > regH) :
    detectStep regW regH xS yS mt b p = b := by
  simp only [detectStep]
  rw [if_pos h]

/-- A fitting iteration keeps the strictly better of the running best and
the oracle's report. -/
theorem detectStep_fit {regW regH xS yS : Nat}
    {mt : Template → ℚ → ℚ × Nat × Nat} {b : Best} {p : Template × ℚ}
    (h : ¬(scaledDim p.1.w p.2 > regW ∨ scaledDim p.1.h p.2 > regH)) :
    detectStep regW regH xS yS mt b p =
      if b.conf < (mt p.1 p.2).1 then
        { x := some ((mt p.1 p.2).2.1 + xS + scaledDim p.1.w p.2 / 2),
          y := some ((mt p.1 p.2).2.2 + yS + scaledDim p.1.h p.2 / 2),
          conf := (mt p.1 p.2).1 }
      else b := by
  simp only [detectStep]
  rw [if_neg h]

/-- The loop confidence is the running maximum of the fitting pairs'
correlations. -/
theorem detect_conf_fold (regW regH xS yS : Nat)
    (mt : Template → ℚ → ℚ × Nat × Nat) (pairs : List (Template × ℚ))
    (b : Best) :
    (pairs.foldl (detectStep regW regH xS yS mt) b).conf =
      ((pairs.filter (fitsB regW regH)).map (corrOf mt)).foldl max b.conf := by
  induction pairs generalizing b with
  | nil => rfl
  | cons p ps ih =>
    rw [List.foldl_cons]
    by_cases hfit : scaledDim p.1.w p.2 > regW ∨ scaledDim p.1.h p.2 > regH
    · have hB : fitsB regW regH p = false := by
        rw [Bool.eq_false_iff]
        intro hT
        rcases fitsB_eq_true.1 hT with ⟨h1, h2⟩
        rcases hfit with h | h
        · omega
        · omega
      rw [detectStep_unfit hfit, List.filter_cons_of_neg (by simp [hB]), ih]
    · have hB : fitsB regW regH p = true := by
        rw [fitsB_eq_true]
        push_neg at hfit
        omega
      rw [detectStep_fit hfit, List.filter_cons_of_pos (by simp [hB])]
      rw [List.map_cons, List.foldl_cons]
      simp only [corrOf]
      by_cases hlt : b.conf < (mt p.1 p.2).1
      · rw [if_pos hlt, ih, max_eq_right (le_of_lt hlt)]
      · rw [if_neg hlt, ih, max_eq_left (not_lt.1 hlt)]

/-- The loop either never updates the running best or ends on a fitting
pair whose correlation is the final confidence and whose centre is the
final location. -/
theorem detect_loc_fold (regW regH xS yS : Nat)
    (mt : Template → ℚ → ℚ × Nat × Nat) (pairs : List (Template × ℚ))
    (b : Best) :
    pairs.foldl (detectStep regW regH xS yS mt) b = b ∨
      ∃ p ∈ pairs.filter (fitsB regW regH),
        corrOf mt p = (pairs.foldl (detectStep regW regH xS yS mt) b).conf ∧
        (pairs.foldl (detectStep regW regH xS yS mt) b).x =
          some ((mt p.1 p.2).2.1 + xS + scaledDim p.1.w p.2 / 2) ∧
        (pairs.foldl (detectStep regW regH xS yS mt) b).y =
          some ((mt p.1 p.2).2.2 + yS + scaledDim p.1.h p.2 / 2) := by
  induction pairs generalizing b with
  | nil => exact Or.inl rfl
  | cons p ps ih =>
    rw [List.foldl_cons]
    by_cases hfit : scaledDim p.1.w p.2 > regW ∨ scaledDim p.1.h p.2 > regH
    · have hB : fitsB regW regH p = false := by
        rw [Bool.eq_false_iff]
        intro hT
        rcases fitsB_eq_true.1 hT with ⟨h1, h2⟩
        rcases hfit with h | h
        · omega
        · omega
      rw [detectStep_unfit hfit]
      rcases ih b with h | ⟨q, hq, h1, h2, h3⟩
      · exact Or.inl h
      · refine Or.inr ⟨q, ?_, h1, h2, h3⟩
        rw [List.filter_cons_of_neg (by simp [hB])]
        exact hq
    · have hB : fitsB regW regH p = true := by
        rw [fitsB_eq_true]
        push_neg at hfit
        omega
      rw [detectStep_fit hfit]
      by_cases hlt : b.conf < (mt p.1 p.2).1
      · rw [if_pos hlt]
        rcases ih ⟨some ((mt p.1 p.2).2.1 + xS + scaledDim p.1.w p.2 / 2),
            some ((mt p.1 p.2).2.2 + yS + scaledDim p.1.h p.2 / 2),
            (mt p.1 p.2).1⟩ with h | ⟨q, hq, h1, h2, h3⟩
        · refine Or.inr ⟨p, ?_, ?_, ?_, ?_⟩
          · rw [List.filter_cons_of_pos (by simp [hB])]
            exact List.mem_cons_self _ _
          · rw [h]
            rfl
          · rw [h]
          · rw [h]
        · refine Or.inr ⟨q, ?_, h1, h2, h3⟩
          rw [List.filter_cons_of_pos (by simp [hB])]
          exact List.mem_cons_of_mem _ hq
      · rw [if_neg hlt]
        rcases ih b with h | ⟨q, hq, h1, h2, h3⟩
        · exact Or.inl h
        · refine Or.inr ⟨q, ?_, h1, h2, h3⟩
          rw [List.filter_cons_of_pos (by simp [hB])]
          exact List.mem_cons_of_mem _ hq

/-- With only nonpositive correlations on fitting pairs, a loop starting
at confidence `0.0` never updates. -/
theorem detect_fold_no_update (regW regH xS yS : Nat)
    (mt : Template → ℚ → ℚ × Nat × Nat) (pairs : List (Template × ℚ))
    (b : Best) (hb : b.conf = 0)
    (hnp : ∀ p ∈ pairs.filter (fitsB regW regH), corrOf mt p ≤ 0) :
    pairs.foldl (detectStep regW regH xS yS mt) b = b := by
  induction pairs with
  | nil => rfl
  | cons p ps ih =>
    rw [List.foldl_cons]
    by_cases hfit : scaledDim p.1.w p.2 > regW ∨ scaledDim p.1.h p.2 > regH
    · rw [detectStep_unfit hfit]
      apply ih
      intro q hq
      apply hnp
      have hB : fitsB regW regH p = false := by
        rw [Bool.eq_false_iff]
        intro hT
        rcases fitsB_eq_true.1 hT with ⟨h1, h2⟩
        rcases hfit with h | h
        · omega
        · omega
      rw [List.filter_cons_of_neg (by simp [hB])]
      exact hq
    · have hB : fitsB regW regH p = true := by
        rw [fitsB_eq_true]
        push_neg at hfit
        omega
      have hple : corrOf mt p ≤ 0 := by
        apply hnp
        rw [List.filter_cons_of_pos (by simp [hB])]
        exact List.mem_cons_self _ _
      have hnlt : ¬(b.conf < (mt p.1 p.2).1) := by
        rw [hb]
        exact not_lt.2 hple
      rw [detectStep_fit hfit, if_neg hnlt]
      apply ih
      intro q hq
      apply hnp
      rw [List.filter_cons_of_pos (by simp [hB])]
      exact List.mem_cons_of_mem _ hq

/-- Arithmetic of the split sizes: with nonnegative ratios summing to at
most one, the train and validation counts fit within the file count. -/
theorem split_counts (n : ℕ) (tr vr : ℚ) (htr : 0 ≤ tr) (hvr : 0 ≤ vr)
    (hsum : tr + vr ≤ 1) :
    (Int.floor ((n : ℚ) * tr)).toNat + (Int.floor ((n : ℚ) * vr)).toNat ≤
      n := by
  have h1 : (0 : ℤ) ≤ Int.floor ((n : ℚ) * tr) :=
    Int.floor_nonneg.2 (mul_nonneg (by positivity) htr)
  have h2 : (0 : ℤ) ≤ Int.floor ((n : ℚ) * vr) :=
    Int.floor_nonneg.2 (mul_nonneg (by positivity) hvr)
  have h3 : Int.floor ((n : ℚ) * tr) + Int.floor ((n : ℚ) * vr) ≤ (n : ℤ) := by
    have hle : (↑(Int.floor ((n : ℚ) * tr) + Int.floor ((n : ℚ) * vr)) : ℚ) ≤
        (n : ℚ) * tr + (n : ℚ) * vr := by
      push_cast
      exact add_le_add (Int.floor_le _) (Int.floor_le _)
    have hle2 : (n : ℚ) * tr + (n : ℚ) * vr ≤ (n : ℚ) := by
      calc (n : ℚ) * tr + (n : ℚ) * vr = (n : ℚ) * (tr + vr) := by ring
        _ ≤ (n : ℚ) * 1 := mul_le_mul_of_nonneg_left hsum (by positivity)
        _ = (n : ℚ) := mul_one _
    exact_mod_cast le_trans hle hle2
  omega

/-- `choose_labels` keeps between `a` and `b` labels whenever every pool
holds at least `a` labels. -/
theorem choose_labels_length (pools : List (List String))
    (idx kChoice a b : Nat) (hab : a ≤ b)
    (hpool : ∀ l ∈ pools, a ≤ l.length) (hne : pools ≠ []) :
    a ≤ (choose_labels pools idx kChoice a b).length ∧
      (choose_labels pools idx kChoice a b).length ≤ b := by
  have hlen : 0 < pools.length := List.length_pos.2 hne
  have hidx : idx % pools.length < pools.length := Nat.mod_lt _ hlen
  have hmem : random_from_pool pools idx ∈ pools := by
    unfold random_from_pool
    rw [List.getD_eq_getElem?_getD, List.getElem?_eq_getElem hidx,
      Option.getD_some]
    exact List.getElem_mem hidx
  have hA : a ≤ (random_from_pool pools idx).length := hpool _ hmem
  have hmod : kChoice %
      (min b (random_from_pool pools idx).length -
        min a (random_from_pool pools idx).length + 1) <
      (min b (random_from_pool pools idx).length -
        min a (random_from_pool pools idx).length + 1) :=
    Nat.mod_lt _ (by omega)
  unfold choose_labels
  simp only [List.length_take]
  omega

/-! ## Claim theorems -/

/-- Claim C1, counterexample: the claim asserts that each of the four bar
states occurs in the encoding of some character, but the full-height bar
`'F'` occurs in no character's encoding at all (neither in any `CHAR_MAP`
value nor in the `'ATDA'` default). -/
theorem C1_counterexample : ¬ ∃ c : Char, 'F' ∈ (char_to_bars c).data := by
  rintro ⟨c, hc⟩
  exact char_to_bars_no_F c hc

/-- Claim C1 (amended): for every input string, every bar produced by
`encode_4state_barcode` is one of the four bar states `'F'`, `'A'`, `'D'`,
`'T'` — indeed always one of `'A'`, `'D'`, `'T'` — but only three of the
four states actually occur: the states `'A'`, `'T'`, `'D'` each occur in
the encoding of some character (for instance `'A'`), while the full bar
`'F'` occurs in no character's encoding. -/
theorem C1_bar_states :
    (∀ (data : String), ∀ b ∈ encode_4state_barcode data,
        b = 'F' ∨ b = 'A' ∨ b = 'D' ∨ b = 'T') ∧
    ('A' ∈ (char_to_bars 'A').data ∧ 'T' ∈ (char_to_bars 'A').data ∧
      'D' ∈ (char_to_bars 'A').data) ∧
    (∀ c : Char, 'F' ∉ (char_to_bars c).data) := by
  refine ⟨?_, by decide, char_to_bars_no_F⟩
  intro data b hb
  rcases List.mem_flatMap.1 hb with ⟨c, -, hbc⟩
  rcases bar_strings_ADT _ (char_to_bars_mem c) b hbc with h | h | h
  · exact Or.inr (Or.inl h)
  · exact Or.inr (Or.inr (Or.inl h))
  · exact Or.inr (Or.inr (Or.inr h))

/-- Claim C1 witness: concrete evaluation of the amended claim on the
character `'A'`, whose encoding `"ATDA"` exhibits the three occurring
states. -/
theorem C1_bar_states_witness :
    ('A' ∈ encode_4state_barcode "A" ∧
      ('A' = 'F' ∨ 'A' = 'A' ∨ 'A' = 'D' ∨ 'A' = 'T')) ∧
    'F' ∉ (char_to_bars 'Z').data :=
  ⟨⟨by decide, C1_bar_states.1 "A" 'A' (by decide)⟩, C1_bar_states.2.2 'Z'⟩

/-- Claim C3: `sign_with_next_uuid` returns `None` exactly when no CSV row
has both its `entity` and `state` fields blank, and then the CSV is left
unchanged; when such a row exists it selects the first one in file order,
sets only that row's `entity` (to the output filename) and `state`
(to `'active'`), leaves every other row unchanged, and returns the
selected `(uuid, output_path)`. -/
theorem C3_sign_with_next_uuid (rows : List Row) (ofn : Option String)
    (odir : String) :
    ((sign_with_next_uuid rows ofn odir).1 = none ↔
      rows.filter isBlankRow = []) ∧
    ((sign_with_next_uuid rows ofn odir).1 = none →
      (sign_with_next_uuid rows ofn odir).2 = rows) ∧
    (∀ pre r post, rows = pre ++ r :: post →
      pre.filter isBlankRow = [] → isBlankRow r = true →
      (sign_with_next_uuid rows ofn odir).1 =
        some (r.uuid,
          odir ++ "/" ++ ofn.getD (strReplaceChar r.uuid '-' '_') ++ ".svg") ∧
      (sign_with_next_uuid rows ofn odir).2 =
        pre ++ { r with
                  entity := ofn.getD (strReplaceChar r.uuid '-' '_') ++ ".svg",
                  state := "active" } :: post) := by
  refine ⟨?_, ?_, ?_⟩
  · constructor
    · intro h
      cases hsp : splitFirstBlank rows with
      | none => exact splitFirstBlank_eq_none.1 hsp
      | some t =>
        obtain ⟨pre, r, post⟩ := t
        simp [sign_with_next_uuid, hsp] at h
    · intro h
      have : splitFirstBlank rows = none := splitFirstBlank_eq_none.2 h
      simp [sign_with_next_uuid, this]
  · intro h
    cases hsp : splitFirstBlank rows with
    | none => simp [sign_with_next_uuid, hsp]
    | some t =>
      obtain ⟨pre, r, post⟩ := t
      simp [sign_with_next_uuid, hsp] at h
  · intro pre r post hdec hpre hr
    subst hdec
    have hsp := @splitFirstBlank_of_decomp pre post r hpre hr
    constructor
    · simp [sign_with_next_uuid, hsp]
    · simp [sign_with_next_uuid, hsp]

/-- Claim C3 witness: on a concrete three-row CSV whose first row is
consumed, the second row is selected, updated and reported. -/
theorem C3_sign_with_next_uuid_witness :
    (sign_with_next_uuid
        [⟨"u1", "doc.svg", "active"⟩, ⟨"u2-a", "", ""⟩, ⟨"u3", "", ""⟩]
        none ".").1 = some ("u2-a", "./u2_a.svg") ∧
    (sign_with_next_uuid
        [⟨"u1", "doc.svg", "active"⟩, ⟨"u2-a", "", ""⟩, ⟨"u3", "", ""⟩]
        none ".").2 =
      [⟨"u1", "doc.svg", "active"⟩, ⟨"u2-a", "u2_a.svg", "active"⟩,
        ⟨"u3", "", ""⟩] := by
  have h := (C3_sign_with_next_uuid
      [⟨"u1", "doc.svg", "active"⟩, ⟨"u2-a", "", ""⟩, ⟨"u3", "", ""⟩]
      none ".").2.2 [⟨"u1", "doc.svg", "active"⟩] ⟨"u2-a", "", ""⟩
      [⟨"u3", "", ""⟩] (by decide) (by decide) (by decide)
  exact ⟨h.1.trans (by decide), h.2.trans (by decide)⟩

/-- Claim C4: over one run of the `sign_pdf_with_barcodes` page loop, the
assigned UUIDs are taken in CSV row order from the blank rows and (for a
CSV whose uuid column has no duplicates) are pairwise distinct; when only
`k` blank rows are available, exactly the first `k` pages are signed and
appear in the merged output, each consuming one UUID row. -/
theorem C4_pdf_uuid_assignment (rows : List Row) (numPages : Nat)
    (base : String) (hnodup : (rows.map Row.uuid).Nodup) :
    (sign_pdf_with_barcodes rows (List.range numPages) base).2.map Prod.snd =
      ((rows.filter isBlankRow).take numPages).map Row.uuid ∧
    ((sign_pdf_with_barcodes rows (List.range numPages) base).2.map
        Prod.snd).Nodup ∧
    (sign_pdf_with_barcodes rows (List.range numPages) base).2.map Prod.fst =
      (List.range (min numPages (rows.filter isBlankRow).length)).map
        (fun p => p + 1) ∧
    (sign_pdf_with_barcodes rows (List.range numPages) base).2.length =
      min numPages (rows.filter isBlankRow).length ∧
    ((sign_pdf_with_barcodes rows (List.range numPages) base).1.filter
        isBlankRow).length =
      (rows.filter isBlankRow).length -
        min numPages (rows.filter isBlankRow).length := by
  obtain ⟨h1, h2, h3, h4⟩ :=
    sign_pdf_loop_spec (List.range numPages) rows base
  have hsub :
      (((rows.filter isBlankRow).take numPages).map Row.uuid).Sublist
        (rows.map Row.uuid) :=
    List.Sublist.map Row.uuid
      (((rows.filter isBlankRow).take_sublist numPages).trans
        (rows.filter_sublist))
  refine ⟨by simpa using h1, ?_, ?_, ?_, ?_⟩
  · rw [h1]
    simpa using hsub.nodup hnodup
  · rw [h2]
    rw [List.take_range, Nat.min_comm]
  · have := congrArg List.length h1
    simpa [Nat.min_comm] using this
  · have h4' :
        ((sign_pdf_with_barcodes rows (List.range numPages) base).1.filter
            isBlankRow).length =
          (rows.filter isBlankRow).length - numPages := by
      simpa using congrArg List.length h4
    omega

/-- Claim C4 witness: a concrete CSV with two blank rows and a three-page
PDF signs exactly pages 1 and 2 with the two blank-row uuids. -/
theorem C4_pdf_uuid_assignment_witness :
    (sign_pdf_with_barcodes
        [⟨"a", "x.svg", "active"⟩, ⟨"b", "", ""⟩, ⟨"c", "", ""⟩]
        (List.range 3) "out.pdf").2.map Prod.snd = ["b", "c"] ∧
    (sign_pdf_with_barcodes
        [⟨"a", "x.svg", "active"⟩, ⟨"b", "", ""⟩, ⟨"c", "", ""⟩]
        (List.range 3) "out.pdf").2.map Prod.fst = [1, 2] := by
  obtain ⟨h1, -, h3, -, -⟩ := C4_pdf_uuid_assignment
    [⟨"a", "x.svg", "active"⟩, ⟨"b", "", ""⟩, ⟨"c", "", ""⟩]
    3 "out.pdf" (by decide)
  exact ⟨h1.trans (by decide), h3.trans (by decide)⟩

/-- Claim C2, counterexample: with a 100x100 image, one 10x10 template
(so that every scaled template fits the default top-right quadrant) and a
matching oracle reporting correlation `-1/2` everywhere, the function
returns `(None, None, 0.0)` even though the maximum normalized
correlation over the fitting template/scale pairs is `-1/2`, not `0.0`:
the returned confidence is not the maximum correlation and no centre is
reported, contrary to the claim. -/
theorem C2_counterexample :
    detect_corner_with_templates (some ⟨100, 100⟩) [⟨"t", 10, 10⟩] none
        (fun _ _ => (mkRat (-1) 2, 0, 0)) = (none, none, 0) ∧
    fittingPairs [⟨"t", 10, 10⟩] 50 50 ≠ [] ∧
    specMaxCorr (fun _ _ => (mkRat (-1) 2, 0, 0))
        (fittingPairs [⟨"t", 10, 10⟩] 50 50) = some (mkRat (-1) 2) ∧
    (0 : ℚ) ≠ mkRat (-1) 2 := by decide

/-- Claim C2 (amended): `detect_corner_with_templates` performs
multi-scale template matching over all template/scale pairs whose scaled
template fits inside the search region (the top-right quadrant by
default); its returned confidence is the maximum reported correlation
over the fitting pairs floored at `0.0`, and whenever that floored
maximum is positive the returned location is the centre of a
best-matching scaled template translated to full-image coordinates.  It
returns `(None, None, 0.0)` when the image is `None`, when no
template/scale pair fits in the region, or when no fitting pair has
positive correlation. -/
theorem C2_detect_corner_refined (img : Image) (templates : List Template)
    (sro : Option (Nat × Nat × Nat × Nat))
    (mt : Template → ℚ → ℚ × Nat × Nat) (xS yS regW regH : Nat)
    (hreg : resolveRegion img sro = (xS, yS, regW, regH)) :
    detect_corner_with_templates none templates sro mt = (none, none, 0) ∧
    (detect_corner_with_templates (some img) templates sro mt).2.2 =
      bestCorr mt (fittingPairs templates regW regH) ∧
    (fittingPairs templates regW regH = [] →
      detect_corner_with_templates (some img) templates sro mt =
        (none, none, 0)) ∧
    (0 < bestCorr mt (fittingPairs templates regW regH) →
      ∃ p ∈ fittingPairs templates regW regH,
        corrOf mt p = bestCorr mt (fittingPairs templates regW regH) ∧
        (detect_corner_with_templates (some img) templates sro mt).1 =
          some ((mt p.1 p.2).2.1 + xS + scaledDim p.1.w p.2 / 2) ∧
        (detect_corner_with_templates (some img) templates sro mt).2.1 =
          some ((mt p.1 p.2).2.2 + yS + scaledDim p.1.h p.2 / 2)) ∧
    ((∀ p ∈ fittingPairs templates regW regH, corrOf mt p ≤ 0) →
      detect_corner_with_templates (some img) templates sro mt =
        (none, none, 0)) := by
  have hdet : detect_corner_with_templates (some img) templates sro mt =
      (((templateScalePairs templates).foldl (detectStep regW regH xS yS mt)
          ⟨none, none, 0⟩).x,
        ((templateScalePairs templates).foldl (detectStep regW regH xS yS mt)
          ⟨none, none, 0⟩).y,
        ((templateScalePairs templates).foldl (detectStep regW regH xS yS mt)
          ⟨none, none, 0⟩).conf) := by
    show (((templateScalePairs templates).foldl
        (detectStep (resolveRegion img sro).2.2.1 (resolveRegion img sro).2.2.2
          (resolveRegion img sro).1 (resolveRegion img sro).2.1 mt)
        ⟨none, none, 0⟩).x, _, _) = _
    rw [hreg]
  have hfil : (templateScalePairs templates).filter (fitsB regW regH) =
      fittingPairs templates regW regH := rfl
  have hconf :
      (detect_corner_with_templates (some img) templates sro mt).2.2 =
        bestCorr mt (fittingPairs templates regW regH) := by
    rw [hdet]
    show ((templateScalePairs templates).foldl (detectStep regW regH xS yS mt)
        ⟨none, none, 0⟩).conf = _
    rw [detect_conf_fold, hfil]
    rfl
  refine ⟨rfl, hconf, ?_, ?_, ?_⟩
  · intro hempty
    have hupd := detect_fold_no_update regW regH xS yS mt
      (templateScalePairs templates) ⟨none, none, 0⟩ rfl (by
        intro p hp
        rw [hfil, hempty] at hp
        simp at hp)
    rw [hdet, hupd]
  · intro hpos
    rcases detect_loc_fold regW regH xS yS mt (templateScalePairs templates)
        ⟨none, none, 0⟩ with hL | ⟨p, hp, h1, h2, h3⟩
    · exfalso
      have h0 : bestCorr mt (fittingPairs templates regW regH) = 0 := by
        rw [← hconf, hdet]
        show ((templateScalePairs templates).foldl
          (detectStep regW regH xS yS mt) ⟨none, none, 0⟩).conf = 0
        rw [hL]
      rw [h0] at hpos
      exact lt_irrefl 0 hpos
    · rw [hfil] at hp
      refine ⟨p, hp, ?_, ?_, ?_⟩
      · rw [h1, ← hconf, hdet]
      · rw [hdet]
        exact h2
      · rw [hdet]
        exact h3
  · intro hnp
    have hupd := detect_fold_no_update regW regH xS yS mt
      (templateScalePairs templates) ⟨none, none, 0⟩ rfl (by
        intro p hp
        rw [hfil] at hp
        exact hnp p hp)
    rw [hdet, hupd]

/-- Claim C2 witness: on a 100x100 image with one 10x10 template, an
oracle reporting correlation 9/10 at scale 1.25 and 1/2 elsewhere gives
confidence 9/10; an oversized template gives `(None, None, 0.0)`; an
all-negative oracle gives `(None, None, 0.0)`. -/
theorem C2_detect_corner_refined_witness :
    (detect_corner_with_templates (some ⟨100, 100⟩) [⟨"t", 10, 10⟩] none
        (fun _ s =>
          (if s = mkRat 5 4 then mkRat 9 10 else mkRat 1 2, 3, 4))).2.2 =
      mkRat 9 10 ∧
    detect_corner_with_templates (some ⟨100, 100⟩) [⟨"big", 200, 200⟩] none
      (fun _ _ => (mkRat 9 10, 3, 4)) = (none, none, 0) ∧
    detect_corner_with_templates (some ⟨100, 100⟩) [⟨"t", 10, 10⟩] none
      (fun _ _ => (mkRat (-1) 2, 3, 4)) = (none, none, 0) := by
  refine ⟨?_, ?_, ?_⟩
  · exact ((C2_detect_corner_refined ⟨100, 100⟩ [⟨"t", 10, 10⟩] none
      (fun _ s => (if s = mkRat 5 4 then mkRat 9 10 else mkRat 1 2, 3, 4))
      50 0 50 50 rfl).2.1).trans (by decide)
  · exact (C2_detect_corner_refined ⟨100, 100⟩ [⟨"big", 200, 200⟩] none
      (fun _ _ => (mkRat 9 10, 3, 4)) 50 0 50 50 rfl).2.2.1 (by decide)
  · exact (C2_detect_corner_refined ⟨100, 100⟩ [⟨"t", 10, 10⟩] none
      (fun _ _ => (mkRat (-1) 2, 3, 4)) 50 0 50 50 rfl).2.2.2.2 (by decide)

/-- Claim C8: after `auto_detect_corners` runs, the output contains
exactly one entry for each image file with a `.jpg`/`.jpeg`/`.png`
extension, not containing `'_distorted'`, that loads successfully; an
entry carries no `needs_review` key exactly when the detection found a
location (`x` and `y` non-None) with confidence at least the threshold,
and otherwise has `needs_review` set to true. -/
theorem C8_auto_detect_corners (templates : List Template)
    (files : List String) (load : String → Bool)
    (det : String → Option ℚ × Option ℚ × ℚ) (thr : ℚ)
    (hT : templates ≠ []) (hnodup : files.Nodup) :
    ∃ out, auto_detect_corners templates files load det thr = some out ∧
      out.map Prod.fst = (detectImageFiles files).filter load ∧
      (out.map Prod.fst).Nodup ∧
      ∀ fe ∈ out,
        (fe.2.needs_review = false ↔
          ((det fe.1).1 ≠ none ∧ (det fe.1).2.1 ≠ none ∧
            thr ≤ (det fe.1).2.2)) := by
  refine ⟨((detectImageFiles files).filter load).map
    (fun f => (f, classifyDetection (det f) thr)), ?_, ?_, ?_, ?_⟩
  · rw [auto_detect_corners, if_neg hT]
  · rw [List.map_map]
    exact List.map_id _
  · rw [List.map_map]
    rw [show ((fun p => Prod.fst p) ∘ fun f =>
        ((f, classifyDetection (det f) thr) : String × DetEntry)) = id from rfl]
    rw [List.map_id]
    exact (((hnodup.filter _).filter _).filter _)
  · intro fe hfe
    rcases List.mem_map.1 hfe with ⟨f, -, rfl⟩
    show (classifyDetection (det f) thr).needs_review = false ↔ _
    unfold classifyDetection
    by_cases h1 : (det f).1 ≠ none ∧ (det f).2.1 ≠ none ∧ (det f).2.2 ≥ thr
    · rw [if_pos h1]
      simpa using h1
    · rw [if_neg h1]
      by_cases h2 : (det f).2.2 > 0
      · rw [if_pos h2]
        simpa using h1
      · rw [if_neg h2]
        simpa using h1

/-- Claim C8 witness: on a concrete directory listing, the output holds
entries exactly for `a.jpg` (detected, no review) and `b.PNG`
(no detection, review), skipping the distorted, non-image and unloadable
files. -/
theorem C8_auto_detect_corners_witness :
    ∃ out, auto_detect_corners [⟨"tpl", 2, 2⟩]
        ["a.jpg", "a_distorted.jpg", "b.PNG", "notes.txt", "c.jpeg"]
        (fun f => decide (f ≠ "c.jpeg"))
        (fun f => if f = "a.jpg" then (some 5, some 6, mkRat 9 10)
          else (none, none, 0)) (mkRat 1 2) = some out ∧
      out.map Prod.fst = ["a.jpg", "b.PNG"] := by
  obtain ⟨out, hout, hkeys, -, -⟩ := C8_auto_detect_corners [⟨"tpl", 2, 2⟩]
    ["a.jpg", "a_distorted.jpg", "b.PNG", "notes.txt", "c.jpeg"]
    (fun f => decide (f ≠ "c.jpeg"))
    (fun f => if f = "a.jpg" then (some 5, some 6, mkRat 9 10)
      else (none, none, 0)) (mkRat 1 2) (by decide) (by decide)
  exact ⟨out, hout, hkeys.trans (by decide)⟩

/-- Claim C5: `create_coco_structure` keeps exactly the annotation
entries whose `x` and `y` are both non-None, and splits their `n` image
files into train, val and test lists of sizes `floor(n * train_ratio)`,
`floor(n * val_ratio)` and the remainder; the three lists are pairwise
disjoint and together contain every valid image file exactly once. -/
theorem C5_create_coco_structure (anns : List (String × Ann))
    (shuffled : List String) (tr vr : ℚ)
    (hperm : shuffled.Perm ((valid_annotations anns).map Prod.fst))
    (hnodup : (anns.map Prod.fst).Nodup)
    (htr : 0 ≤ tr) (hvr : 0 ≤ vr) (hsum : tr + vr ≤ 1) :
    (∀ p, p ∈ valid_annotations anns ↔
      p ∈ anns ∧ p.2.x.isSome = true ∧ p.2.y.isSome = true) ∧
    (split_files shuffled tr vr).1.length =
      (Int.floor ((shuffled.length : ℚ) * tr)).toNat ∧
    (split_files shuffled tr vr).2.1.length =
      (Int.floor ((shuffled.length : ℚ) * vr)).toNat ∧
    (split_files shuffled tr vr).2.2.length =
      shuffled.length - (Int.floor ((shuffled.length : ℚ) * tr)).toNat -
        (Int.floor ((shuffled.length : ℚ) * vr)).toNat ∧
    ((split_files shuffled tr vr).1 ++ (split_files shuffled tr vr).2.1 ++
      (split_files shuffled tr vr).2.2).Perm
        ((valid_annotations anns).map Prod.fst) ∧
    ((split_files shuffled tr vr).1 ++ (split_files shuffled tr vr).2.1 ++
      (split_files shuffled tr vr).2.2).Nodup ∧
    (split_files shuffled tr vr).1.Disjoint
      (split_files shuffled tr vr).2.1 ∧
    (split_files shuffled tr vr).1.Disjoint
      (split_files shuffled tr vr).2.2 ∧
    (split_files shuffled tr vr).2.1.Disjoint
      (split_files shuffled tr vr).2.2 := by
  have hcounts := split_counts shuffled.length tr vr htr hvr hsum
  have hconcat :
      (split_files shuffled tr vr).1 ++ ((split_files shuffled tr vr).2.1 ++
        (split_files shuffled tr vr).2.2) = shuffled := by
    simp only [split_files]
    rw [List.take_append_drop, List.take_append_drop]
  have hvnodup : ((valid_annotations anns).map Prod.fst).Nodup :=
    (List.Sublist.map Prod.fst (List.filter_sublist anns)).nodup hnodup
  have hshufnodup : shuffled.Nodup := hperm.nodup_iff.2 hvnodup
  have hall :
      ((split_files shuffled tr vr).1 ++ (split_files shuffled tr vr).2.1 ++
        (split_files shuffled tr vr).2.2).Nodup := by
    rw [List.append_assoc, hconcat]
    exact hshufnodup
  have hsplitdis := List.nodup_append.1 (by rwa [List.append_assoc] at hall)
  refine ⟨?_, ?_, ?_, ?_, ?_, hall, ?_, ?_, ?_⟩
  · intro p
    simp only [valid_annotations, List.mem_filter, Bool.and_eq_true]
  · simp only [split_files, List.length_take]
    omega
  · simp only [split_files, List.length_take, List.length_drop]
    omega
  · simp only [split_files, List.length_drop]
  · rw [List.append_assoc, hconcat]
    exact hperm
  · intro x hx1 hx2
    exact hsplitdis.2.2 hx1 (List.mem_append_left _ hx2)
  · intro x hx1 hx2
    exact hsplitdis.2.2 hx1 (List.mem_append_right _ hx2)
  · exact (List.nodup_append.1 hsplitdis.2.1).2.2

/-- Claim C5 witness: six annotations of which five are valid, ratios
4/5 and 1/5: four train files, one validation file, no test files. -/
theorem C5_create_coco_structure_witness :
    (split_files ["c", "a", "e", "b", "d"] (4 / 5) (1 / 5)).1.length = 4 ∧
    (split_files ["c", "a", "e", "b", "d"] (4 / 5) (1 / 5)).2.1.length = 1 ∧
    (split_files ["c", "a", "e", "b", "d"] (4 / 5) (1 / 5)).2.2.length = 0 := by
  obtain ⟨-, h1, h2, h3, -, -, -, -, -⟩ := C5_create_coco_structure
    [("a", ⟨some 1, some 2⟩), ("b", ⟨some 3, some 4⟩), ("f", ⟨none, some 5⟩),
      ("c", ⟨some 6, some 7⟩), ("d", ⟨some 8, some 0⟩), ("e", ⟨some 9, some 10⟩)]
    ["c", "a", "e", "b", "d"] (4 / 5) (1 / 5)
    (by decide) (by decide) (by norm_num) (by norm_num) (by norm_num)
  refine ⟨h1.trans ?_, h2.trans ?_, h3.trans ?_⟩ <;> norm_num <;> decide

/-- Claim C7: `distort_images` is idempotent at the file-set level:
inputs whose name contains the suffix are never processed, an input whose
output file already exists is skipped, and a second run on the folder
produced by the first run (the original files plus the files the first
run created) creates or overwrites no file at all. -/
theorem C7_distort_images_idempotent (files : List String) (suffix : String) :
    (∀ f, strHasSub f suffix = true → f ∉ distortInputs files suffix) ∧
    (∀ acc f, outputName f suffix ∈ acc.1 → distortStep suffix acc f = acc) ∧
    distort_images (files ++ distort_images files suffix) suffix = [] := by
  refine ⟨?_, ?_, ?_⟩
  · intro f hsub hmem
    have := (List.mem_filter.1 hmem).2
    simp [hsub] at this
  · intro acc f h
    unfold distortStep
    rw [if_pos h]
  · have hskip : ∀ f ∈ distortInputs (files ++ distort_images files suffix)
        suffix,
        outputName f suffix ∈ files ++ distort_images files suffix := by
      intro f hf
      have hf' := List.mem_filter.1 hf
      have hjpg := List.mem_filter.1 hf'.1
      have hnosub := hf'.2
      have hfile : f ∈ files := by
        rcases List.mem_append.1 hjpg.1 with h | h
        · exact h
        · rcases distortFold_acc2_src suffix _ _ h with h0 | ⟨g, -, rfl⟩
          · simp at h0
          · rw [outputName_hasSub g suffix] at hnosub
            simp at hnosub
      have hin : f ∈ distortInputs files suffix := by
        apply List.mem_filter.2
        exact ⟨List.mem_filter.2 ⟨hfile, hjpg.2⟩, hnosub⟩
      have hout :
          outputName f suffix ∈
            ((distortInputs files suffix).foldl (distortStep suffix)
              (files, [])).1 :=
        distortFold_out_mem suffix _ _ hin
      rcases distortFold_acc1_sub suffix _ _ hout with h | h
      · exact List.mem_append_left _ h
      · exact List.mem_append_right _ h
    show ((distortInputs (files ++ distort_images files suffix)
        suffix).foldl (distortStep suffix)
          (files ++ distort_images files suffix, [])).2 = []
    rw [distortFold_all_skip _ _ _ hskip]

/-- Claim C7 witness: with suffix `'_distorted'`, a file already carrying
the suffix is not an input, a step whose output exists is the identity,
and the second run over the folder left by a first run creates nothing. -/
theorem C7_distort_images_idempotent_witness :
    "b_distorted.jpg" ∉ distortInputs ["b_distorted.jpg", "b.jpg"] "_distorted" ∧
    distortStep "_distorted" (["a_distorted.jpg", "a.jpg"], []) "a.jpg" =
      (["a_distorted.jpg", "a.jpg"], []) ∧
    distort_images ("a.jpg" :: distort_images ["a.jpg"] "_distorted")
      "_distorted" = [] := by
  refine ⟨?_, ?_, ?_⟩
  · exact (C7_distort_images_idempotent ["b_distorted.jpg", "b.jpg"]
      "_distorted").1 "b_distorted.jpg" (by decide)
  · exact (C7_distort_images_idempotent ["a.jpg"] "_distorted").2.1
      (["a_distorted.jpg", "a.jpg"], []) "a.jpg" (by decide)
  · exact (C7_distort_images_idempotent ["a.jpg"] "_distorted").2.2

/-- Claim C9: every `'Value'` cell written by `gen_single_series` and
`gen_grouped_series` is an integer at least 1 (the computed value is
clamped with `max(1, ...)`), and every single-series table has between
4 and 6 data rows under the header `('Category', 'Value')`. -/
theorem C9_synthetic_tables (idx kChoice : Nat) (base noise : Nat → ℤ)
    (idxP kP idxS kS : Nat) (baseOf : Nat → ℤ) (shareOf : Nat → ℚ)
    (weightOf : Nat → Nat → ℚ) (uOf : Nat → Nat → ℚ) :
    (gen_single_series idx kChoice base noise).1 = ("Category", "Value") ∧
    (∀ r ∈ (gen_single_series idx kChoice base noise).2, 1 ≤ r.2) ∧
    4 ≤ (gen_single_series idx kChoice base noise).2.length ∧
    (gen_single_series idx kChoice base noise).2.length ≤ 6 ∧
    (gen_grouped_series idxP kP idxS kS baseOf shareOf weightOf uOf).1 =
      ("Group", "Subgroup", "Value") ∧
    (∀ r ∈ (gen_grouped_series idxP kP idxS kS baseOf shareOf weightOf
        uOf).2, 1 ≤ r.2.2) := by
  have hlen := choose_labels_length SINGLE_SERIES_CATEGORY_POOLS idx kChoice
    4 6 (by omega) (by decide) (by decide)
  refine ⟨rfl, ?_, ?_, ?_, rfl, ?_⟩
  · intro r hr
    rcases List.mem_map.1 hr with ⟨li, -, rfl⟩
    exact le_max_left _ _
  · show 4 ≤ ((choose_labels SINGLE_SERIES_CATEGORY_POOLS idx kChoice
      4 6).enum.map _).length
    rw [List.length_map, List.enum_length]
    exact hlen.1
  · show ((choose_labels SINGLE_SERIES_CATEGORY_POOLS idx kChoice
      4 6).enum.map _).length ≤ 6
    rw [List.length_map, List.enum_length]
    exact hlen.2
  · intro r hr
    rcases List.mem_flatMap.1 hr with ⟨pi, -, hmem⟩
    rcases List.mem_map.1 hmem with ⟨sj, -, rfl⟩
    exact le_max_left _ _

/-- Claim C9 witness: with concrete oracle draws the first single-series
table is four animal rows of value 20, and some grouped-series row
(whose value the clamp keeps at least 1) exists. -/
theorem C9_synthetic_tables_witness :
    ("Lion", (20 : ℤ)) ∈
      (gen_single_series 0 0 (fun _ => 20) (fun _ => 0)).2 ∧
    (1 : ℤ) ≤ 20 ∧
    4 ≤ (gen_single_series 0 0 (fun _ => 20) (fun _ => 0)).2.length ∧
    (∃ r ∈ (gen_grouped_series 0 0 0 0 (fun _ => 5) (fun _ => 0)
        (fun _ _ => 0) (fun _ _ => 0)).2, 1 ≤ r.2.2) := by
  have h := C9_synthetic_tables 0 0 (fun _ => 20) (fun _ => 0) 0 0 0 0
    (fun _ => 5) (fun _ => 0) (fun _ _ => 0) (fun _ _ => 0)
  have hmem : ("Lion", (20 : ℤ)) ∈
      (gen_single_series 0 0 (fun _ => 20) (fun _ => 0)).2 := by decide
  have hpos : 0 < (gen_grouped_series 0 0 0 0 (fun _ => 5) (fun _ => 0)
      (fun _ _ => 0) (fun _ _ => 0)).2.length := by decide
  obtain ⟨r, hr⟩ := List.exists_mem_of_length_pos hpos
  exact ⟨hmem, h.2.1 _ hmem, h.2.2.1, ⟨r, hr, h.2.2.2.2.2 r hr⟩⟩

/-- Claim C10: the 6x6 matrix printed by `extract_binary_matrix` has
every entry 0 or 1 and its sixth row and sixth column identically 0; it
is the 5x5 thresholded cell pattern (cell mean below 128 gives 1)
zero-padded with one extra row and one extra column. -/
theorem C10_pattern_6x6 (g : GrayImg) :
    (∀ i j : Fin 6, pattern_6x6 g i j = 0 ∨ pattern_6x6 g i j = 1) ∧
    (∀ j : Fin 6, pattern_6x6 g 5 j = 0) ∧
    (∀ i : Fin 6, pattern_6x6 g i 5 = 0) ∧
    (∀ i j : Fin 5, pattern_6x6 g i.castSucc j.castSucc =
      pattern_5x5 g i j) ∧
    (∀ i j : Fin 5, (pattern_5x5 g i j = 1 ↔
      (cellLo (g.h / 5) i.val < cellHi (g.h / 5) i.val ∧
       cellLo (g.w / 5) j.val < cellHi (g.w / 5) j.val ∧
       regionMean g (cellLo (g.h / 5) i.val) (cellHi (g.h / 5) i.val)
         (cellLo (g.w / 5) j.val) (cellHi (g.w / 5) j.val) < 128))) := by
  refine ⟨?_, ?_, ?_, ?_, ?_⟩
  · intro i j
    unfold pattern_6x6
    by_cases h : i.val < 5 ∧ j.val < 5
    · rw [dif_pos h]
      unfold pattern_5x5
      split_ifs
      · exact Or.inr rfl
      · exact Or.inl rfl
      · exact Or.inl rfl
    · rw [dif_neg h]
      exact Or.inl rfl
  · intro j
    unfold pattern_6x6
    rw [dif_neg]
    intro h
    exact absurd h.1 (by decide)
  · intro i
    unfold pattern_6x6
    rw [dif_neg]
    intro h
    exact absurd h.2 (by decide)
  · intro i j
    have hi : i.castSucc.val < 5 := by simp
    have hj : j.castSucc.val < 5 := by simp
    unfold pattern_6x6
    rw [dif_pos ⟨hi, hj⟩]
    have h1 : (⟨i.castSucc.val, hi⟩ : Fin 5) = i := by
      apply Fin.ext
      simp
    have h2 : (⟨j.castSucc.val, hj⟩ : Fin 5) = j := by
      apply Fin.ext
      simp
    rw [h1, h2]
  · intro i j
    unfold pattern_5x5
    by_cases h1 : cellHi (g.h / 5) i.val > cellLo (g.h / 5) i.val ∧
        cellHi (g.w / 5) j.val > cellLo (g.w / 5) j.val
    · rw [if_pos h1]
      by_cases h2 : regionMean g (cellLo (g.h / 5) i.val)
          (cellHi (g.h / 5) i.val) (cellLo (g.w / 5) j.val)
          (cellHi (g.w / 5) j.val) < 128
      · rw [if_pos h2]
        simp only [true_iff]
        exact ⟨h1.1, h1.2, h2⟩
      · rw [if_neg h2]
        simp only [Nat.zero_ne_one, false_iff]
        intro hcon
        exact h2 hcon.2.2
    · rw [if_neg h1]
      simp only [Nat.zero_ne_one, false_iff]
      intro hcon
      exact h1 ⟨hcon.1, hcon.2.1⟩

/-- Claim C6: the character map is not injective — `'1'` and `'4'` (and
`'E'` and `'H'`) receive identical bar strings, and consequently
`encode_4state_barcode` identifies the distinct payloads `"1"` and `"4"`. -/
theorem C6_char_map_not_injective :
    char_to_bars '1' = char_to_bars '4' ∧ ('1' : Char) ≠ '4' ∧
    char_to_bars 'E' = char_to_bars 'H' ∧ ('E' : Char) ≠ 'H' ∧
    encode_4state_barcode "1" = encode_4state_barcode "4" ∧
    ("1" : String) ≠ "4" := by decide

end FieldChartOCR
